import Mathlib

/-!
# Verification of the cash-flow-tracker credit-statement accrual engine

Shallow embedding of the accrual orchestrator (`accrueDebtInternal` in the debt
controller), the event gathering and sorting it performs, and the scheduled
batch runner (`processDebtAccruals` in `scheduledTasksService.js`).

Conventions of the embedding:
* JavaScript numbers are modelled as rationals (`ℚ`); `Number(x.toFixed(2))`
  becomes `round2` (round to the nearest hundredth, ties toward positive
  infinity, which is what `toFixed` specifies on exact decimal inputs).
* Date-only JavaScript `Date` values are modelled as `CalDate`
  (year, 0-based month, 1-based day of month), with `toDays` giving the
  absolute day number used for all comparisons (JS compares timestamps of
  midnight-normalised dates, which is order-isomorphic to day numbers).
* The ISO strings `YYYY-MM-DD` stored in `CreditHistory` rows compare
  lexicographically exactly as their dates compare chronologically, so
  history records store the absolute day number (`Int`) instead of the string.
* Fields that JavaScript reads with truthiness checks (`!e.debtId`,
  `!e.date`, `!e.entryType`) are modelled as `Option`, with `none` covering
  `undefined`/`null`/empty-string; a non-numeric `amount` (`Number(...)`
  yielding `NaN`) is modelled as `none` and collapses to `0` exactly as
  `Number(e.amount) || 0` does.
-/

namespace CashFlowTracker

/-- Proleptic Gregorian leap-year test, as JavaScript `Date` implements it. -/
def isLeap (y : Int) : Bool :=
  (y % 4 == 0 && !(y % 100 == 0)) || (y % 400 == 0)

/-- Number of days of month `m` (0-based, JavaScript convention) in year `y`.
This is `new Date(y, m + 1, 0).getDate()` in the source. -/
def daysInMonth (y : Int) (m : Nat) : Int :=
  if m = 1 then (if isLeap y then 29 else 28)
  else if m = 3 ∨ m = 5 ∨ m = 8 ∨ m = 10 then 30
  else 31

/-- A date-only JavaScript `Date`: year, 0-based month (`0..11`),
1-based day of month. All constructors below produce normalised dates. -/
structure CalDate where
  y : Int
  m : Nat
  d : Int
deriving DecidableEq

/-- Day number of 1 January of year `y`, counted from 1 January of year 0
(proleptic Gregorian; exact for `y ≥ 0`, which covers every date the
program can construct from its four-digit year inputs). -/
def yearStart (y : Int) : Int :=
  365 * y + (y + 3) / 4 - (y + 99) / 100 + (y + 399) / 400

/-- Days from 1 January of year `y` to the first day of 0-based month `m`.
Only `m ≤ 12` is meaningful (the program never builds a larger month). -/
def daysBeforeMonth (y : Int) (m : Nat) : Int :=
  let feb : Int := if isLeap y then 29 else 28
  match m with
  | 0 => 0
  | 1 => 31
  | 2 => 31 + feb
  | 3 => 62 + feb
  | 4 => 92 + feb
  | 5 => 123 + feb
  | 6 => 153 + feb
  | 7 => 184 + feb
  | 8 => 215 + feb
  | 9 => 245 + feb
  | 10 => 276 + feb
  | 11 => 306 + feb
  | _ => 337 + feb

/-- Absolute day number of a date (days since 1 January of year 0).
Comparing dates through `toDays` models JavaScript timestamp comparison of
midnight-normalised dates. -/
def toDays (c : CalDate) : Int :=
  yearStart c.y + daysBeforeMonth c.y c.m + c.d - 1

/-- `new Date(y, m - 1, 1)` for 0-based month `m`: the previous month. -/
def prevMonthOf (y : Int) (m : Nat) : Int × Nat :=
  if m = 0 then (y - 1, 11) else (y, m - 1)

/-- `new Date(y, m + 1, ...)` for 0-based month `m`: the next month. -/
def nextMonthOf (y : Int) (m : Nat) : Int × Nat :=
  if m = 11 then (y + 1, 0) else (y, m + 1)

/-- `new Date(y, m + 1, 0)`: the last day of 0-based month `m` of year `y`. -/
def lastDayOfMonth (y : Int) (m : Nat) : CalDate :=
  ⟨y, m, daysInMonth y m⟩

/-- `new Date(c.getFullYear(), c.getMonth(), c.getDate() + 1)`:
the following calendar day (for a normalised input date). -/
def nextDay (c : CalDate) : CalDate :=
  if c.d + 1 ≤ daysInMonth c.y c.m then ⟨c.y, c.m, c.d + 1⟩
  else ⟨(nextMonthOf c.y c.m).1, (nextMonthOf c.y c.m).2, 1⟩

/-- `Math.min(Math.max(1, d), new Date(y, m + 1, 0).getDate())`: the `dayClamp`
helper defined inside the accrual orchestrator. -/
def dayClamp (y : Int) (m : Nat) (d : Int) : Int :=
  min (max 1 d) (daysInMonth y m)

/-
## Financial primitives
-/

/-- `Number(x.toFixed(2))` on an ideal (rational) number: round to the nearest
hundredth, ties toward positive infinity (`toFixed` picks the larger candidate
integer on a tie). -/
def round2 (x : ℚ) : ℚ :=
  (⌊x * 100 + 1 / 2⌋ : ℚ) / 100

/-- The annual-rate normalisation applied inline by the orchestrator and the
preview handler: `debt.interesEfectivo > 1 ? debt.interesEfectivo / 100 :
debt.interesEfectivo`. -/
def normalizeAnnualRate (rate : ℚ) : ℚ :=
  if rate > 1 then rate / 100 else rate

/-- The persisted statement balance:
`Number((Math.max(0, previousBalance + charges + interests - payments)).toFixed(2))`. -/
def statementBalanceOf (previousBalance charges interests payments : ℚ) : ℚ :=
  round2 (max 0 (previousBalance + charges + interests - payments))

/-
## Events and expenses
-/

/-- The `kind` of a period event (the lower-cased `entryType`). -/
inductive EventKind
  | charge
  | payment
deriving DecidableEq

/-- One entry of `periodEvents`: `{ date, kind, amount }` with a date-only date. -/
structure Event where
  date : Int
  kind : EventKind
  amount : ℚ
deriving DecidableEq

/-- An `Expenses` row as `getExpensesObjects` returns it.  `none` models the
falsy values (`undefined`/`null`/empty string) the code tests for, and a
`none` amount models a value on which `Number(...)` yields `NaN`. -/
structure Expense where
  debtId : Option String
  date : Option CalDate
  entryType : Option String
  amount : Option ℚ
deriving DecidableEq

/-- `String.prototype.toLowerCase()` (ASCII range, which is all the engine
compares against), written over the character list so that concrete instances
reduce. -/
def jsToLowerCase (s : String) : String :=
  ⟨s.data.map Char.toLower⟩

/-- The body of the `for (const e of allExpenses)` filter of the orchestrator:
decides whether one expense row contributes a period event, and with which
kind, for the half-open day window `[startT, endT)`. -/
def eventOfExpense (debtId : String) (startT endT : Int) (e : Expense) :
    Option Event :=
  match e.debtId, e.date with
  | some d, some dt =>
    if d == debtId then
      let t := toDays dt
      if startT ≤ t ∧ t < endT then
        let entryType := (e.entryType.map jsToLowerCase).getD ""
        let amount := e.amount.getD 0
        if amount ≤ 0 then none
        else if entryType == "charge" then some ⟨t, .charge, amount⟩
        else if entryType == "payment" then some ⟨t, .payment, amount⟩
        else none
      else none
    else none
  | _, _ => none

/-- The comparator passed to `periodEvents.sort`: ascending date, and on equal
dates a payment sorts before a charge. -/
def eventCmp (a b : Event) : Int :=
  if a.date ≠ b.date then a.date - b.date
  else if a.kind = b.kind then 0
  else if a.kind = .payment then -1 else 1

/-- The comparator as a boolean "should not come after" relation; a stable
sort with `eventCmp` produces a list sorted by it. -/
def eventLe (a b : Event) : Bool :=
  decide (eventCmp a b ≤ 0)

/-- `periodEvents.sort((a, b) => ...)` from the orchestrator. -/
def sortEvents (l : List Event) : List Event :=
  l.mergeSort eventLe

/-
## Data model
-/

/-- A `Debts` row as the orchestrator parses it (tolerating blank cells):
`balance`, `dueDay`, `cutOffDay` may be absent (`none` also covers a `NaN`
parse, which `Number.isFinite` rejects); `interesEfectivo` defaults to `0`. -/
structure Debt where
  id : String
  name : String
  balance : Option ℚ
  dueDay : Option Int
  cutOffDay : Option Int
  interesEfectivo : ℚ
  active : Bool
deriving DecidableEq

/-- A `CreditHistory` row.  `statementDate` and `dueDate` hold the absolute
day number of the stored ISO `YYYY-MM-DD` string (same equality and order).
`statementBalance` and `interests` are optional because old rows may hold
blanks, which `Number.isFinite` rejects. -/
structure HistoryRecord where
  debtId : String
  statementDate : Int
  dueDate : Int
  previousBalance : ℚ
  charges : ℚ
  interests : Option ℚ
  payments : ℚ
  statementBalance : Option ℚ
  bonifiableInterest : ℚ
  installmentBalance : ℚ
  annualEffectiveRate : ℚ
  termMonths : Option ℚ
  periodDays : Int
  paymentMade : ℚ
deriving DecidableEq

/-- The spreadsheet tabs the orchestrator reads. -/
structure SheetsState where
  debts : List Debt
  history : List HistoryRecord
  expenses : List Expense
deriving DecidableEq

/-- The `ApiError`s the orchestrator can throw. -/
inductive ApiErr
  | notFound (msg : String)
  | badRequest (msg : String)
deriving DecidableEq

/-- One persisted side effect of the orchestrator, in execution order. -/
inductive WriteOp
  | appendHistory (record : HistoryRecord)
  | updateHistoryRow (rowNumber : Nat) (record : HistoryRecord)
  | updateDebtBalance (debtId : String) (balance : ℚ)
deriving DecidableEq

/-- The non-throwing result of `accrueDebtInternal` (`success` is always
`true` in the source, so it is omitted). -/
structure AccrueOk where
  skipped : Bool
  reason : Option String
  statementDate : Option Int
  record : Option HistoryRecord
deriving DecidableEq

/-- Options of `accrueDebtInternal`.  A `periodParam` is kept as the two
numeric groups of a string already matching `/^\d{4}-\d{2}$/` (year, 1-based
month `0..99`); a string that fails the regex takes the same branch as an
absent parameter and is modelled as `none`. -/
structure AccrueOptions where
  recompute : Bool := false
  dateParam : Option CalDate := none
  periodParam : Option (Nat × Nat) := none
deriving DecidableEq

/-
## Spec-modelled collaborators

The utility modules `src/utils/finance.js` and
`src/utils/creditStatementCalculator.js` and the spreadsheet service are not
part of the provided sources; the functions below are modelled from the
spec's description of their interfaces.
-/

/-- Modelled from the spec: `nextDateForDayOfMonth` lives in
`src/utils/finance.js`, which is not among the provided sources.  Spec §4.1:
the next calendar date (possibly the same date) whose day-of-month equals
`day` (clamped to the month), at or after `fromDate`. -/
def nextDateForDayOfMonth (day : Int) (fromDate : CalDate) : CalDate :=
  let c := dayClamp fromDate.y fromDate.m day
  if fromDate.d ≤ c then ⟨fromDate.y, fromDate.m, c⟩
  else
    let ny := (nextMonthOf fromDate.y fromDate.m).1
    let nm := (nextMonthOf fromDate.y fromDate.m).2
    ⟨ny, nm, dayClamp ny nm day⟩

/-- Modelled from the spec: `daysBetweenDates` lives in `src/utils/finance.js`,
which is not among the provided sources.  Spec §4.1: integer day count
`dateB - dateA` on midnight-normalised dates. -/
def daysBetweenDates (a b : CalDate) : Int :=
  toDays b - toDays a

/-- Modelled from the spec: the data-access method
`sumPaymentsForDebt(debtId, fromDate, toDate)` of the spreadsheet service
(spec §6), whose implementation is not among the provided sources: the sum of
payment-type expense amounts for the debt dated within the closed interval
`[fromT, toT]`. -/
def sumPaymentsForDebt (expenses : List Expense) (debtId : String)
    (fromT toT : Int) : ℚ :=
  expenses.foldl
    (fun s e =>
      match e.debtId, e.date with
      | some d, some dt =>
        if d == debtId
            && ((e.entryType.map jsToLowerCase).getD "" == "payment")
            && decide (fromT ≤ toDays dt ∧ toDays dt ≤ toT)
        then s + e.amount.getD 0
        else s
      | _, _ => s)
    0

/-- Modelled from the spec: `computeSpdInterests` is imported from
`src/utils/creditStatementCalculator.js`, which is not among the provided
sources.  Spec §4.2: walk the period `[startT, endT)` day by day, tracking a
running balance that starts at `previousBalance` and is adjusted by each
event on its date (the event list is already sorted), accruing
`dailyRate × runningBalance` per day; the spec gives no separate closed
formula for the informational grace-period figure beyond "computed over the
same walk", so both components are returned from the same walk. -/
def computeSpdInterests (previousBalance : ℚ) (events : List Event)
    (annualRateUnit : ℚ) (startT endT : Int) : ℚ × ℚ :=
  let dailyRate := annualRateUnit / 365
  let n := (endT - startT).toNat
  let walk :=
    (List.range n).foldl
      (fun acc i =>
        let t := startT + (i : Int)
        let bal := events.foldl
          (fun b e =>
            if e.date = t then
              match e.kind with
              | .payment => b - e.amount
              | .charge => b + e.amount
            else b)
          acc.1
        (bal, acc.2 + dailyRate * bal))
      ((previousBalance, 0) : ℚ × ℚ)
  (walk.2, walk.2)

/-- Modelled from the spec: `computeInterestCarryOver` is imported from
`src/utils/creditStatementCalculator.js`, which is not among the provided
sources.  Spec §4.2: given the immediately preceding statement record and the
payments actually made against it, the part of its interest that remains
unpaid; zero if the statement was paid in full. -/
def computeInterestCarryOver (last : HistoryRecord) (prevPaid : ℚ) : ℚ :=
  let bal := last.statementBalance.getD 0
  let ints := last.interests.getD 0
  if bal ≤ prevPaid then 0 else max 0 (min ints (bal - prevPaid))

/-
## Accrual orchestrator: date resolution (steps 2-4)
-/

/-- Statement-date resolution when no (valid) explicit period is supplied:
latest cutoff on or before the base date, or the last day of the previous
month when no cutoff is configured. -/
def resolveStatementDateNoPeriod (debt : Debt) (base : CalDate) : CalDate :=
  match debt.cutOffDay with
  | some c =>
    let cut := dayClamp base.y base.m c
    if cut ≤ base.d then ⟨base.y, base.m, cut⟩
    else
      let py := (prevMonthOf base.y base.m).1
      let pm := (prevMonthOf base.y base.m).2
      ⟨py, pm, dayClamp py pm c⟩
  | none =>
    let py := (prevMonthOf base.y base.m).1
    let pm := (prevMonthOf base.y base.m).2
    lastDayOfMonth py pm

/-- Statement date for an explicit period `YYYY-MM` already resolved to a
year and a 0-based month: that month's clamped cutoff day, or its last day
when no cutoff is configured. -/
def statementDateForPeriod (debt : Debt) (y : Int) (m : Nat) : CalDate :=
  match debt.cutOffDay with
  | some c => ⟨y, m, dayClamp y m c⟩
  | none => lastDayOfMonth y m

/-- Step 2 of the orchestrator: resolve the statement date, throwing
`400 Invalid period format` when the period's month group is out of range. -/
def resolveStatementDate (debt : Debt) (periodParam : Option (Nat × Nat))
    (base : CalDate) : Except ApiErr CalDate :=
  match periodParam with
  | some (py, pmm) =>
    if pmm < 1 ∨ 12 < pmm then
      .error (.badRequest "Invalid period format. Expected YYYY-MM")
    else
      .ok (statementDateForPeriod debt (py : Int) (pmm - 1))
  | none => .ok (resolveStatementDateNoPeriod debt base)

/-- Step 3: the due date: next occurrence of the due day on/after the
statement date, or clamped day 25 of the statement month. -/
def resolveDueDate (debt : Debt) (s : CalDate) : CalDate :=
  match debt.dueDay with
  | some dd => nextDateForDayOfMonth dd s
  | none => ⟨s.y, s.m, dayClamp s.y s.m 25⟩

/-- Step 4: the previous statement date: the clamped cutoff day of the month
before the statement date, or the last day of that month when no cutoff is
configured (`new Date(y, m, 0)`). -/
def resolvePrevStatementDate (debt : Debt) (s : CalDate) : CalDate :=
  let py := (prevMonthOf s.y s.m).1
  let pm := (prevMonthOf s.y s.m).2
  match debt.cutOffDay with
  | some c => ⟨py, pm, dayClamp py pm c⟩
  | none => lastDayOfMonth py pm

/-- The first day of the event window of the cycle whose statement date is
`s`: `prevStatementDate + 1 day` (the source's `startPeriod`). -/
def periodStartT (debt : Debt) (s : CalDate) : Int :=
  toDays (nextDay (resolvePrevStatementDate debt s))

/-- Membership of day `t` in the half-open event window
`[startPeriod, statementDate)` of the cycle whose statement date is `s`:
exactly the date test of the orchestrator's expense filter. -/
def inEventWindow (debt : Debt) (s : CalDate) (t : Int) : Prop :=
  periodStartT debt s ≤ t ∧ t < toDays s

instance (debt : Debt) (s : CalDate) (t : Int) :
    Decidable (inEventWindow debt s t) := by
  unfold inEventWindow
  infer_instance

/-
## Accrual orchestrator: main function (steps 1-11)
-/

/-- Step 6's `lastForDebt`: the prior records sorted descending by statement
date, first element — i.e. the first record (in sheet order) carrying the
maximal statement date strictly before `sd`. -/
def lastStatementBefore (history : List HistoryRecord) (debtId : String)
    (sd : Int) : Option HistoryRecord :=
  (history.filter (fun h => h.debtId == debtId && decide (h.statementDate < sd))).foldl
    (fun acc h =>
      match acc with
      | none => some h
      | some a => if a.statementDate < h.statementDate then some h else some a)
    none

/-- Index (from `start`) of the first element satisfying `p`. -/
def findIdxFrom {α : Type} (p : α → Bool) : List α → Nat → Option Nat
  | [], _ => none
  | a :: t, i => if p a then some i else findIdxFrom p t (i + 1)

/-- The data-access lookup `findCreditHistoryRow(debtId, statementDate)`:
the 1-based sheet row (header row first, so data row `i` is sheet row
`i + 2`) of the first matching record. -/
def findCreditHistoryRow (history : List HistoryRecord) (debtId : String)
    (sd : Int) : Option Nat :=
  findIdxFrom (fun h => h.debtId == debtId && h.statementDate == sd) history 2

/-- The `exists` check of step 5: is there already a `CreditHistory` row with
the idempotency key `(debtId, statementDate)`? -/
def historyHasKey (history : List HistoryRecord) (debtId : String)
    (sd : Int) : Bool :=
  history.any (fun h => h.debtId == debtId && h.statementDate == sd)

/-- Steps 6-11 of `accrueDebtInternal` (the part after the idempotency check
decided not to skip): determine the previous balance, gather and sort the
period events, compute the statement, and return the result together with
the two writes — the `CreditHistory` append/update followed by the debt
balance update. -/
def accrueCompute (st : SheetsState) (debtId : String)
    (options : AccrueOptions) (today : CalDate) (debt : Debt)
    (statementDate : CalDate) :
    Except ApiErr AccrueOk × List WriteOp :=
  let dueDate := resolveDueDate debt statementDate
  let prevStatementDate := resolvePrevStatementDate debt statementDate
  let sd := toDays statementDate
  let exists_ := historyHasKey st.history debtId sd
  let previousRowNumber :=
    if exists_ && options.recompute then
      findCreditHistoryRow st.history debtId sd
    else none
  let lastForDebt := lastStatementBefore st.history debtId sd
  let previousBalance :=
    match lastForDebt with
    | some h =>
      match h.statementBalance with
      | some b => b
      | none => debt.balance.getD 0
    | none => debt.balance.getD 0
  let startPeriod := nextDay prevStatementDate
  let startT := toDays startPeriod
  let periodEvents :=
    sortEvents (st.expenses.filterMap (eventOfExpense debtId startT sd))
  let charges :=
    (periodEvents.filter (fun e => e.kind = .charge)).foldl
      (fun s e => s + e.amount) 0
  let payments :=
    (periodEvents.filter (fun e => e.kind = .payment)).foldl
      (fun s e => s + e.amount) 0
  let annualRateUnit := normalizeAnnualRate debt.interesEfectivo
  let spd := computeSpdInterests previousBalance periodEvents
    annualRateUnit startT sd
  let interestCarryOver :=
    match lastForDebt with
    | some l =>
      computeInterestCarryOver l
        (sumPaymentsForDebt st.expenses debtId l.statementDate l.dueDate)
    | none => 0
  let interests := round2 (spd.1 + interestCarryOver)
  let bonifiableInterest := round2 spd.2
  let statementBalance :=
    statementBalanceOf previousBalance charges interests payments
  let installmentBalance := round2 (statementBalance + bonifiableInterest)
  let record : HistoryRecord :=
    { debtId := debtId
      statementDate := sd
      dueDate := toDays dueDate
      previousBalance := previousBalance
      charges := charges
      interests := some interests
      payments := payments
      statementBalance := some statementBalance
      bonifiableInterest := bonifiableInterest
      installmentBalance := installmentBalance
      annualEffectiveRate := annualRateUnit
      termMonths := none
      periodDays := daysBetweenDates startPeriod statementDate
      paymentMade := sumPaymentsForDebt st.expenses debtId sd (toDays dueDate) }
  let historyWrite :=
    if exists_ && options.recompute then
      match previousRowNumber with
      | some n => WriteOp.updateHistoryRow n record
      | none => WriteOp.appendHistory record
    else WriteOp.appendHistory record
  let currentCharges :=
    st.expenses.foldl
      (fun s e =>
        match e.debtId, e.date with
        | some d, some dt =>
          if d == debtId
              && decide (sd < toDays dt ∧ toDays dt ≤ toDays today)
              && ((e.entryType.map jsToLowerCase).getD "" == "charge")
          then s + e.amount.getD 0
          else s
        | _, _ => s)
      0
  let currentPayments :=
    st.expenses.foldl
      (fun s e =>
        match e.debtId, e.date with
        | some d, some dt =>
          if d == debtId
              && decide (sd < toDays dt ∧ toDays dt ≤ toDays today)
              && ((e.entryType.map jsToLowerCase).getD "" == "payment")
          then s + e.amount.getD 0
          else s
        | _, _ => s)
      0
  let currentBalance :=
    round2 (statementBalance + currentCharges - currentPayments)
  (.ok ⟨false, none, some sd, some record⟩,
    [historyWrite, .updateDebtBalance debtId currentBalance])

/-- `accrueDebtInternal(sheetsService, debtId, options)`.  `today` stands for
the clock reads (`new Date()`); the returned list is the sequence of write
calls the invocation performs, in order. -/
def accrueDebtInternal (st : SheetsState) (debtId : String)
    (options : AccrueOptions) (today : CalDate) :
    Except ApiErr AccrueOk × List WriteOp :=
  match st.debts.find? (fun d => d.id == debtId) with
  | none => (.error (.notFound "Debt not found"), [])
  | some debt =>
    if debt.active = false then
      (.ok ⟨true, some "Debt is inactive", none, none⟩, [])
    else
      match resolveStatementDate debt options.periodParam
          (options.dateParam.getD today) with
      | .error e => (.error e, [])
      | .ok statementDate =>
        if historyHasKey st.history debtId (toDays statementDate)
            && !options.recompute then
          (.ok ⟨true, some "Already accrued for this statementDate",
            some (toDays statementDate), none⟩, [])
        else
          accrueCompute st debtId options today debt statementDate

/-- Interpretation of one write call against the spreadsheet state. -/
def applyWrite (st : SheetsState) : WriteOp → SheetsState
  | .appendHistory r => { st with history := st.history ++ [r] }
  | .updateHistoryRow n r => { st with history := st.history.set (n - 2) r }
  | .updateDebtBalance id b =>
    { st with
      debts := st.debts.map
        (fun d => if d.id == id then { d with balance := some b } else d) }

/-- Interpretation of a sequence of write calls, in order. -/
def applyWrites (st : SheetsState) (ws : List WriteOp) : SheetsState :=
  ws.foldl applyWrite st

/-- Number of `CreditHistory` rows carrying the idempotency key
`(debtId, statementDate)`. -/
def countKey (history : List HistoryRecord) (debtId : String) (sd : Int) : Nat :=
  (history.filter (fun h => h.debtId == debtId && h.statementDate == sd)).length

/-
## Scheduled batch runner (`processDebtAccruals`)

The runner's collaborators (the probe `fetch`, `refreshAccessToken`,
`getDebtsObjects`, `accrueDebtInternal`) are suspending calls whose outcomes
the runner branches on; each outcome is recorded in the corresponding field
of the tenant/debt value, so the runner's control flow is modelled exactly
while the collaborators stay abstract.
-/

/-- Outcome of the lightweight probe request against the tenant's sheet. -/
inductive ProbeResult
  | ok
  | unauthorized
  | failStatus
  | exn
deriving DecidableEq

/-- Outcome of one `accrueDebtInternal` call as the runner's `try`/`catch`
observes it: it threw, or returned a skipped result, or a processed one. -/
inductive AccrualCallResult
  | threw
  | wasSkipped
  | succeeded
deriving DecidableEq

/-- One debt of a tenant, as the batch runner sees it, together with the
outcome of the accrual call for it. -/
structure BatchDebt where
  id : String
  name : String
  active : Bool
  cutOffDay : Option Int
  accrueOutcome : AccrualCallResult
deriving DecidableEq

/-- One tenant of the batch run.  `none` for `sheetId`/`accessToken`/
`refreshToken` models the falsy values the runner tests; `debtsFetch` is the
outcome of loading the tenant's debts (`none` models the service throwing,
caught by the per-user handler). -/
structure BatchUser where
  id : String
  sheetId : Option String
  accessToken : Option String
  refreshToken : Option String
  probe : ProbeResult
  refreshOk : Bool
  debtsFetch : Option (List BatchDebt)
deriving DecidableEq

/-- The aggregated counters of a batch run. -/
structure BatchCounts where
  totalProcessed : Nat
  totalSkipped : Nat
  totalErrors : Nat
deriving DecidableEq

/-- The per-debt body of the runner's inner loop: skip inactive debts, skip
debts whose (truthy) `cutOffDay` differs from today's day-of-month, otherwise
invoke accrual and count the outcome. -/
def accrueStep (todayDay : Int) (c : BatchCounts) (debt : BatchDebt) :
    BatchCounts :=
  if debt.active = false then c
  else
    match debt.cutOffDay with
    | none => c
    | some cut =>
      if cut = 0 ∨ cut ≠ todayDay then c
      else
        match debt.accrueOutcome with
        | .threw => { c with totalErrors := c.totalErrors + 1 }
        | .wasSkipped => { c with totalSkipped := c.totalSkipped + 1 }
        | .succeeded => { c with totalProcessed := c.totalProcessed + 1 }

/-- Process the debts of one tenant once its credential was settled: a throw
while loading debts is caught by the per-user handler and counted; otherwise
fold the per-debt body over the tenant's debts. -/
def processUserDebts (todayDay : Int) (c : BatchCounts) (user : BatchUser) :
    BatchCounts :=
  match user.debtsFetch with
  | none => { c with totalErrors := c.totalErrors + 1 }
  | some debts => debts.foldl (accrueStep todayDay) c

/-- The per-tenant body of `processDebtAccruals`: skip tenants without linked
sheet or credential; probe the credential; on 401 with a refresh token,
refresh — a refresh failure hits `continue` (skipping the tenant with no
counter change); a non-ok, non-401 probe or a probe exception also skip the
tenant; a 401 without refresh token falls through to debt processing with the
expired token. -/
def processUser (todayDay : Int) (c : BatchCounts) (user : BatchUser) :
    BatchCounts :=
  if user.sheetId.isNone || user.accessToken.isNone then c
  else
    match user.probe with
    | .exn => c
    | .failStatus => c
    | .unauthorized =>
      if user.refreshToken.isSome then
        if user.refreshOk then processUserDebts todayDay c user else c
      else processUserDebts todayDay c user
    | .ok => processUserDebts todayDay c user

/-- `processDebtAccruals` of `scheduledTasksService.js`: fold the per-tenant
body over all users, starting from zero counters.  `todayDay` is
`new Date().getDate()`. -/
def processDebtAccruals (todayDay : Int) (users : List BatchUser) :
    BatchCounts :=
  users.foldl (processUser todayDay) ⟨0, 0, 0⟩

/-
## Concrete fixtures (used by witnesses and counterexamples)
-/

/-- A credit-card debt with cutoff day 15, due day 25, 18% annual rate. -/
def cDebt : Debt := ⟨"d1", "Card", some 100, some 25, some 15, 18, true⟩

/-- The June 2025 statement date of `cDebt` (cutoff day 15). -/
def cStatementJun : CalDate := ⟨2025, 5, 15⟩

/-- An already-persisted June 2025 statement row for `cDebt`. -/
def cRecordJun : HistoryRecord :=
  ⟨"d1", toDays cStatementJun, toDays ⟨2025, 5, 25⟩, 0, 0, some 0, 0,
    some 100, 0, 0, 0, none, 30, 0⟩

/-- A sheet holding `cDebt` and its June statement. -/
def cState : SheetsState := ⟨[cDebt], [cRecordJun], []⟩

/-- A clock date after the June cutoff. -/
def cToday : CalDate := ⟨2025, 5, 20⟩

/-- A batch debt whose cutoff day is the 15th and whose accrual call
succeeds. -/
def cBatchDebt : BatchDebt := ⟨"d1", "Card", true, some 15, .succeeded⟩

/-- A healthy tenant with one matching debt. -/
def cGoodUser2 : BatchUser :=
  ⟨"u2", some "sheet", some "tok", some "rt", .ok, true, some [cBatchDebt]⟩

/-- Another healthy tenant with one matching debt. -/
def cGoodUser3 : BatchUser :=
  ⟨"u3", some "sheet", some "tok", some "rt", .ok, true, some [cBatchDebt]⟩

/-- A tenant whose probe returns 401 and whose token refresh fails. -/
def cBadRefreshUser : BatchUser :=
  ⟨"u1", some "sheet", some "tok", some "rt", .unauthorized, false,
    some [cBatchDebt]⟩

/-
## Supporting lemmas: calendar arithmetic
-/

theorem yearStart_succ (y : Int) :
    yearStart (y + 1) = yearStart y + 365 + (if isLeap y then 1 else 0) := by
  unfold yearStart isLeap
  split <;> rename_i h <;>
    simp only [Bool.or_eq_true, Bool.and_eq_true, beq_iff_eq, Bool.not_eq_true',
      beq_eq_false_iff_ne, ne_eq] at h <;> omega

theorem daysBeforeMonth_succ (y : Int) (m : Nat) (hm : m ≤ 11) :
    daysBeforeMonth y (m + 1) = daysBeforeMonth y m + daysInMonth y m := by
  interval_cases m <;> simp [daysBeforeMonth, daysInMonth] <;> omega

theorem daysInMonth_pos (y : Int) (m : Nat) : 1 ≤ daysInMonth y m := by
  unfold daysInMonth
  split
  · split <;> omega
  · split <;> omega

theorem daysBeforeMonth_twelve (y : Int) :
    daysBeforeMonth y 12 = 365 + (if isLeap y then 1 else 0) := by
  simp only [daysBeforeMonth]
  split <;> omega

theorem toDays_first_of_next_month (y : Int) (m : Nat) (hm : m ≤ 11) :
    toDays ⟨(nextMonthOf y m).1, (nextMonthOf y m).2, 1⟩
      = toDays ⟨y, m, daysInMonth y m⟩ + 1 := by
  by_cases h11 : m = 11
  · subst h11
    have hnext : nextMonthOf y 11 = (y + 1, 0) := rfl
    rw [hnext]
    simp only [toDays]
    rw [yearStart_succ]
    have hstep : daysBeforeMonth y 12 = daysBeforeMonth y 11 + daysInMonth y 11 :=
      daysBeforeMonth_succ y 11 (by omega)
    have h12 := daysBeforeMonth_twelve y
    have h0 : daysBeforeMonth (y + 1) 0 = 0 := rfl
    by_cases hl : isLeap y <;>
      simp only [hl, if_pos, if_neg, ite_true, ite_false] at * <;> omega
  · have hnext : nextMonthOf y m = (y, m + 1) := by simp [nextMonthOf, h11]
    rw [hnext]
    simp only [toDays]
    rw [daysBeforeMonth_succ y m hm]
    omega

theorem toDays_nextDay (c : CalDate) (hm : c.m ≤ 11)
    (h2 : c.d ≤ daysInMonth c.y c.m) :
    toDays (nextDay c) = toDays c + 1 := by
  unfold nextDay
  split
  · simp only [toDays]
    omega
  · rename_i hgt
    have hd : c.d = daysInMonth c.y c.m := by omega
    rw [toDays_first_of_next_month c.y c.m hm]
    simp only [toDays]
    omega

theorem dayClamp_lower (y : Int) (m : Nat) (d : Int) : 1 ≤ dayClamp y m d := by
  have := daysInMonth_pos y m
  unfold dayClamp
  omega

theorem dayClamp_upper (y : Int) (m : Nat) (d : Int) :
    dayClamp y m d ≤ daysInMonth y m := by
  unfold dayClamp
  omega

theorem prevMonthOf_snd_le (y : Int) (m : Nat) (hm : m ≤ 11) :
    (prevMonthOf y m).2 ≤ 11 := by
  unfold prevMonthOf
  split <;> simp
  omega

theorem prevMonthOf_nextMonthOf (y : Int) (m : Nat) (hm : m ≤ 11) :
    prevMonthOf (nextMonthOf y m).1 (nextMonthOf y m).2 = (y, m) := by
  by_cases h11 : m = 11
  · subst h11
    simp [nextMonthOf, prevMonthOf]
  · have h1 : nextMonthOf y m = (y, m + 1) := by simp [nextMonthOf, h11]
    rw [h1]
    simp [prevMonthOf]

theorem nextMonthOf_prevMonthOf (y : Int) (m : Nat) (hm : m ≤ 11) :
    nextMonthOf (prevMonthOf y m).1 (prevMonthOf y m).2 = (y, m) := by
  by_cases h0 : m = 0
  · subst h0
    simp [nextMonthOf, prevMonthOf]
  · have h1 : prevMonthOf y m = (y, m - 1) := by simp [prevMonthOf, h0]
    rw [h1]
    have h2 : ¬(m - 1 = 11) := by omega
    simp only [nextMonthOf, if_neg h2]
    have h3 : m - 1 + 1 = m := by omega
    rw [h3]

theorem toDays_lt_next_month (y : Int) (m : Nat) (hm : m ≤ 11) (d1 d2 : Int)
    (h1 : d1 ≤ daysInMonth y m) (h2 : 1 ≤ d2) :
    toDays ⟨y, m, d1⟩ < toDays ⟨(nextMonthOf y m).1, (nextMonthOf y m).2, d2⟩ := by
  have h := toDays_first_of_next_month y m hm
  simp only [toDays] at *
  omega

/-
## Supporting lemmas: list search and key counting
-/

theorem findIdxFrom_of_any {α : Type} (p : α → Bool) (l : List α) :
    ∀ i, l.any p = true →
      ∃ j, findIdxFrom p l i = some (i + j) ∧
        ∃ hj : j < l.length, p (l.get ⟨j, hj⟩) = true := by
  induction l with
  | nil => intro i h; simp at h
  | cons a t ih =>
    intro i h
    by_cases hp : p a = true
    · refine ⟨0, ?_, ?_, ?_⟩
      · simp [findIdxFrom, hp]
      · simp
      · simpa using hp
    · have h2 : t.any p = true := by
        simp only [List.any_cons, Bool.or_eq_true] at h
        tauto
      obtain ⟨j, hfi, hj, hpj⟩ := ih (i + 1) h2
      refine ⟨j + 1, ?_, ?_, ?_⟩
      · simp only [findIdxFrom, if_neg hp]
        rw [hfi]
        congr 1
        omega
      · simpa using hj
      · simpa using hpj

theorem countKey_set (l : List HistoryRecord) (j : Nat) (r : HistoryRecord)
    (hj : j < l.length)
    (hid : (l.get ⟨j, hj⟩).debtId = r.debtId)
    (hsd : (l.get ⟨j, hj⟩).statementDate = r.statementDate) :
    ∀ id sd, countKey (l.set j r) id sd = countKey l id sd := by
  induction l generalizing j with
  | nil => simp at hj
  | cons a t ih =>
    intro id sd
    cases j with
    | zero =>
      simp only [List.get] at hid hsd
      have hcond : (r.debtId == id && r.statementDate == sd)
          = (a.debtId == id && a.statementDate == sd) := by
        rw [hid, hsd]
      simp only [List.set, countKey, List.filter_cons, hcond]
      by_cases hc : (a.debtId == id && a.statementDate == sd) = true <;>
        simp [hc]
    | succ jj =>
      have hj2 : jj < t.length := by simpa using hj
      simp only [List.get] at hid hsd
      have hrec := ih jj hj2 hid hsd id sd
      simp only [List.set, countKey, List.filter_cons]
      by_cases hc : (a.debtId == id && a.statementDate == sd) = true <;>
        simp only [hc, if_pos, if_neg, Bool.false_eq_true, ite_true, ite_false,
          List.length_cons] <;>
        simpa [countKey] using hrec

/-
## Supporting lemmas: the event comparator
-/

theorem eventLe_iff (a b : Event) :
    eventLe a b = true ↔
      (a.date < b.date ∨
        (a.date = b.date ∧ (a.kind = b.kind ∨ a.kind = .payment))) := by
  unfold eventLe eventCmp
  by_cases hdate : a.date = b.date
  · by_cases hkind : a.kind = b.kind
    · simp [hdate, hkind]
    · by_cases hpay : a.kind = EventKind.payment
      · have hb : ¬(EventKind.payment = b.kind) := by
          rw [← hpay]
          exact hkind
        simp [hdate, hkind, hpay, hb]
      · simp [hdate, hkind, hpay]
  · simp only [ne_eq, hdate, not_false_eq_true, if_pos, decide_eq_true_eq,
      false_and, or_false]
    omega

theorem eventLe_trans (a b c : Event) :
    eventLe a b = true → eventLe b c = true → eventLe a c = true := by
  simp only [eventLe_iff]
  intro h1 h2
  rcases h1 with h1 | ⟨h1d, h1k⟩ <;> rcases h2 with h2 | ⟨h2d, h2k⟩
  · left; omega
  · left; omega
  · left; omega
  · right
    refine ⟨by omega, ?_⟩
    cases ha : a.kind <;> cases hb : b.kind <;> cases hc : c.kind <;>
      simp_all

theorem eventLe_total (a b : Event) :
    (eventLe a b || eventLe b a) = true := by
  simp only [Bool.or_eq_true, eventLe_iff]
  by_cases hdate : a.date = b.date
  · cases ha : a.kind <;> cases hb : b.kind <;> simp_all
  · by_cases hlt : a.date < b.date
    · left; left; omega
    · right; left; omega

/-
## Claim C5: annual-rate normalisation
-/

/-- Claim C5: annual-rate normalisation is a dual-input contract: a rate
above 1 is treated as a percentage and divided by 100, any other rate is
returned unchanged as a unit fraction; in particular
`normalizeAnnualRate(0.18) == 0.18` and `normalizeAnnualRate(18) == 0.18`. -/
theorem normalizeAnnualRate_dual_contract :
    normalizeAnnualRate (18 / 100) = 18 / 100 ∧
    normalizeAnnualRate 18 = 18 / 100 ∧
    ∀ r : ℚ,
      (1 < r → normalizeAnnualRate r = r / 100) ∧
      (r ≤ 1 → normalizeAnnualRate r = r) := by
  refine ⟨by norm_num [normalizeAnnualRate], by norm_num [normalizeAnnualRate], ?_⟩
  intro r
  constructor
  · intro h
    simp [normalizeAnnualRate, h]
  · intro h
    simp [normalizeAnnualRate, not_lt.mpr h]

/-- Witness for C5: the dual contract applied at the concrete rates 2 and
one half. -/
theorem normalizeAnnualRate_dual_contract_witness :
    normalizeAnnualRate 2 = 2 / 100 ∧ normalizeAnnualRate (1 / 2) = 1 / 2 :=
  ⟨(normalizeAnnualRate_dual_contract.2.2 2).1 (by norm_num),
    (normalizeAnnualRate_dual_contract.2.2 (1 / 2)).2 (by norm_num)⟩

/-
## Claim C2: statement-balance formula and non-negativity
-/

/-- Counterexample to C2 as stated: the persisted statement balance is the
`max(0, ...)` expression rounded to two decimals by `toFixed(2)`, so for the
sub-cent input `charges = 0.007` the persisted value `0.01` differs from
`max(0, previousBalance + charges + interests - payments) = 0.007`. -/
theorem statementBalance_not_exact_counterexample :
    statementBalanceOf 0 (7 / 1000) 0 0 = 1 / 100 ∧
    max 0 ((0 : ℚ) + 7 / 1000 + 0 - 0) = 7 / 1000 ∧
    statementBalanceOf 0 (7 / 1000) 0 0 ≠ max 0 ((0 : ℚ) + 7 / 1000 + 0 - 0) := by
  refine ⟨?_, by norm_num, ?_⟩ <;>
    norm_num [statementBalanceOf, round2, Int.floor_eq_iff]

/-- Claim C2 (amended): for all inputs the persisted statement balance equals
`max(0, previousBalance + charges + interests - payments)` rounded to two
decimals — exactly that quantity whenever it is a whole number of cents — and
is therefore never negative. -/
theorem statementBalance_clamped_rounded (pb ch ints pay : ℚ) :
    statementBalanceOf pb ch ints pay = round2 (max 0 (pb + ch + ints - pay)) ∧
    0 ≤ statementBalanceOf pb ch ints pay ∧
    ((max 0 (pb + ch + ints - pay) * 100).den = 1 →
      statementBalanceOf pb ch ints pay = max 0 (pb + ch + ints - pay)) := by
  refine ⟨rfl, ?_, ?_⟩
  · unfold statementBalanceOf round2
    have hnn : (0 : ℚ) ≤ max 0 (pb + ch + ints - pay) := le_max_left 0 _
    have hfl : (0 : ℤ) ≤ ⌊max 0 (pb + ch + ints - pay) * 100 + 1 / 2⌋ := by
      apply Int.floor_nonneg.mpr
      nlinarith
    apply div_nonneg _ (by norm_num)
    exact_mod_cast hfl
  · intro hden
    unfold statementBalanceOf round2
    set q := max 0 (pb + ch + ints - pay) with hq
    have hint : ((q * 100).num : ℚ) = q * 100 := by
      rw [← Rat.den_eq_one_iff]
      exact hden
    rw [← hint]
    rw [show ((q * 100).num : ℚ) + 1 / 2 = 1 / 2 + ((q * 100).num : ℚ) by ring]
    rw [Int.floor_add_int]
    norm_num
    rw [hint]
    field_simp

/-- Witness for the amended C2: at the whole-cent inputs
`previousBalance = 10, charges = 5, interests = 2, payments = 3` the
persisted balance equals the `max(0, ...)` expression exactly. -/
theorem statementBalance_clamped_rounded_witness :
    statementBalanceOf 10 5 2 3 = max 0 ((10 : ℚ) + 5 + 2 - 3) :=
  (statementBalance_clamped_rounded 10 5 2 3).2.2 (by norm_num)

/-
## Claim C10: case-insensitive, positivity-guarded event filtering
-/

/-- Claim C10: event filtering is case-insensitive on `entryType`: an expense
row contributes a period event exactly when it carries the debt's id, a date
inside the half-open window, a positive numeric amount, and an `entryType`
whose lower-casing is `charge` or `payment` (so `Charge` and `PAYMENT` are
counted); every other row — wrong or missing `entryType`, non-positive or
non-numeric amount — contributes nothing. -/
theorem eventFilter_case_insensitive :
    jsToLowerCase "Charge" = "charge" ∧
    jsToLowerCase "PAYMENT" = "payment" ∧
    ∀ (debtId : String) (startT endT : Int) (e : Expense),
      (∃ ev, eventOfExpense debtId startT endT e = some ev) ↔
        (e.debtId = some debtId ∧
          (∃ dt, e.date = some dt ∧ startT ≤ toDays dt ∧ toDays dt < endT) ∧
          0 < e.amount.getD 0 ∧
          (∃ s, e.entryType = some s ∧
            (jsToLowerCase s = "charge" ∨ jsToLowerCase s = "payment"))) := by
  refine ⟨by decide, by decide, ?_⟩
  intro debtId startT endT e
  obtain ⟨edid, edate, etype, eamt⟩ := e
  rcases edid with _ | d
  · simp [eventOfExpense]
  rcases edate with _ | dt
  · simp [eventOfExpense]
  simp only [eventOfExpense, Option.some.injEq]
  by_cases hdd : d = debtId
  · subst hdd
    rw [if_pos (by simp)]
    by_cases hw : startT ≤ toDays dt ∧ toDays dt < endT
    · rw [if_pos hw]
      by_cases ham : eamt.getD 0 ≤ 0
      · rw [if_pos ham]
        have hnpos : ¬(0 < eamt.getD 0) := not_lt.mpr ham
        simp [hnpos]
      · rw [if_neg ham]
        have hpos : 0 < eamt.getD 0 := not_le.mp ham
        rcases etype with _ | s
        · simp [hw, hpos]
        · by_cases hc : jsToLowerCase s = "charge"
          · simp [hc, hw, hpos]
          · by_cases hp : jsToLowerCase s = "payment"
            · simp [hc, hp, hw, hpos]
            · simp [hc, hp]
    · rw [if_neg hw]
      simp [hw]
  · rw [if_neg (by simpa using hdd)]
    simp [hdd]

/-
## Claim C6: same-date ordering of period events
-/

/-- Claim C6: the sorted event list used by the average-daily-balance
calculation is ascending in date, and a charge is never placed before a
payment of the same date — equivalently, for any two same-date events the
payment comes first, so it reduces the running balance before that day's
charges are applied. -/
theorem sortEvents_payment_before_charge (l : List Event) :
    (sortEvents l).Pairwise
      (fun a b =>
        a.date ≤ b.date ∧
        ¬(a.date = b.date ∧ a.kind = .charge ∧ b.kind = .payment)) := by
  have hs : (sortEvents l).Pairwise (fun a b => eventLe a b = true) := by
    unfold sortEvents
    exact List.sorted_mergeSort
      (fun a b c => eventLe_trans a b c)
      (fun a b => eventLe_total a b) l
  refine hs.imp ?_
  intro a b hab
  rw [eventLe_iff] at hab
  constructor
  · rcases hab with h | ⟨h, _⟩ <;> omega
  · rintro ⟨hdate, hcharge, hpayment⟩
    rcases hab with h | ⟨_, hk | hk⟩
    · omega
    · rw [hcharge, hpayment] at hk
      exact absurd hk (by simp)
    · rw [hcharge] at hk
      exact absurd hk (by simp)

/-
## Claim C9: exact cutoff-day matching in the batch runner
-/

/-- Claim C9: the batch runner triggers accrual for a debt exactly when the
debt is active and its (truthy) `cutOffDay` equals today's day-of-month, with
no clamping to month length; consequently, in a month shorter than a debt's
`cutOffDay` (such as `cutOffDay = 31` in February) no day of that month can
trigger the debt's accrual. -/
theorem batch_trigger_exact_cutoff :
    (∀ (todayDay : Int) (c : BatchCounts) (d : BatchDebt),
      accrueStep todayDay c d ≠ c ↔
        (d.active = true ∧ d.cutOffDay = some todayDay ∧ todayDay ≠ 0)) ∧
    (∀ (y : Int) (m : Nat) (todayDay : Int) (c : BatchCounts) (d : BatchDebt)
        (cut : Int),
      todayDay ≤ daysInMonth y m → d.cutOffDay = some cut →
      daysInMonth y m < cut → accrueStep todayDay c d = c) := by
  constructor
  · intro todayDay c d
    unfold accrueStep
    rcases hact : d.active with _ | _
    · simp
    · simp only [Bool.true_eq_false, if_neg, ite_false, Bool.false_eq_true,
        not_false_eq_true, true_and, reduceCtorEq]
      rcases hcut : d.cutOffDay with _ | cut
      · simp
      · simp only [Option.some.injEq]
        by_cases hcond : cut = 0 ∨ cut ≠ todayDay
        · rw [if_pos hcond]
          constructor
          · intro h
            exact absurd rfl h
          · rintro ⟨h1, h2⟩
            rcases hcond with h0 | hne
            · exact absurd (by omega : todayDay = 0) h2
            · exact absurd h1 hne
        · rw [if_neg hcond]
          push_neg at hcond
          constructor
          · intro _
            exact ⟨hcond.2, fun h0 => hcond.1 (by omega)⟩
          · intro _
            rcases houtcome : d.accrueOutcome with _ | _ | _ <;>
              simp only [houtcome] <;> intro heq
            · have h2 := congrArg BatchCounts.totalErrors heq
              simp at h2
            · have h2 := congrArg BatchCounts.totalSkipped heq
              simp at h2
            · have h2 := congrArg BatchCounts.totalProcessed heq
              simp at h2
  · intro y m todayDay c d cut hle hcut hbig
    unfold accrueStep
    rcases hact : d.active with _ | _
    · simp
    · simp only [Bool.true_eq_false, if_neg, ite_false, Bool.false_eq_true,
        not_false_eq_true, reduceCtorEq]
      simp only [hcut]
      have hne : cut ≠ todayDay := by omega
      rw [if_pos (Or.inr hne)]

/-- Witness for C9: a debt with `cutOffDay = 31` is never triggered on the
28th (the last day of February 2025), and the trigger criterion holds at an
exact match. -/
theorem batch_trigger_exact_cutoff_witness :
    accrueStep 28 ⟨0, 0, 0⟩ ⟨"d9", "Card", true, some 31, .succeeded⟩
        = ⟨0, 0, 0⟩ ∧
    accrueStep 15 ⟨0, 0, 0⟩ cBatchDebt ≠ ⟨0, 0, 0⟩ :=
  ⟨batch_trigger_exact_cutoff.2 2025 1 28 ⟨0, 0, 0⟩
      ⟨"d9", "Card", true, some 31, .succeeded⟩ 31 (by decide) rfl (by decide),
    (batch_trigger_exact_cutoff.1 15 ⟨0, 0, 0⟩ cBatchDebt).mpr
      ⟨rfl, rfl, by decide⟩⟩

/-
## Claim C8: batch behaviour on a failed credential refresh
-/

/-- Counterexample to C8 as stated: in a batch over three tenants, each with
one debt whose cutoff day matches today, where the first tenant's probe
returns 401 and its refresh fails, the remaining two tenants are still
processed — but the failed tenant is NOT counted as an error: the refresh
`catch` block hits `continue` without touching `totalErrors`, so the run ends
with zero errors, not the one error the claim requires. -/
theorem batch_refresh_failure_counterexample :
    processDebtAccruals 15 [cBadRefreshUser, cGoodUser2, cGoodUser3]
        = ⟨2, 0, 0⟩ ∧
    (processDebtAccruals 15 [cBadRefreshUser, cGoodUser2, cGoodUser3]).totalErrors
        = 0 := by
  constructor <;> decide

/-- Claim C8 (amended): a tenant whose expired credential fails to refresh is
skipped with ALL counters unchanged — it is not counted as an error — while
the remaining tenants are still processed exactly as if the tenant were
absent; per-user debt-loading failures and per-debt accrual throws are the
errors that are caught and counted, and they never abort the batch. -/
theorem batch_refresh_failure_skips_without_error
    (todayDay : Int) (pre post : List BatchUser) (bad : BatchUser)
    (hsheet : bad.sheetId.isSome = true)
    (htok : bad.accessToken.isSome = true)
    (hprobe : bad.probe = .unauthorized)
    (hrt : bad.refreshToken.isSome = true)
    (hfail : bad.refreshOk = false) :
    (∀ c, processUser todayDay c bad = c) ∧
    processDebtAccruals todayDay (pre ++ bad :: post)
      = processDebtAccruals todayDay (pre ++ post) ∧
    (∀ c u, u.sheetId.isSome = true → u.accessToken.isSome = true →
      u.probe = .ok → u.debtsFetch = none →
      processUser todayDay c u = { c with totalErrors := c.totalErrors + 1 }) ∧
    (∀ c d, d.active = true → d.cutOffDay = some todayDay → todayDay ≠ 0 →
      d.accrueOutcome = .threw →
      accrueStep todayDay c d = { c with totalErrors := c.totalErrors + 1 }) := by
  obtain ⟨sv, hsv⟩ := Option.isSome_iff_exists.mp hsheet
  obtain ⟨tv, htv⟩ := Option.isSome_iff_exists.mp htok
  obtain ⟨rv, hrv⟩ := Option.isSome_iff_exists.mp hrt
  have h1 : ∀ c, processUser todayDay c bad = c := by
    intro c
    unfold processUser
    simp [hsv, htv, hprobe, hrv, hfail]
  refine ⟨h1, ?_, ?_, ?_⟩
  · unfold processDebtAccruals
    rw [List.foldl_append, List.foldl_append, List.foldl_cons, h1]
  · intro c u husheet hutok huprobe hufetch
    obtain ⟨usv, husv⟩ := Option.isSome_iff_exists.mp husheet
    obtain ⟨utv, hutv⟩ := Option.isSome_iff_exists.mp hutok
    unfold processUser processUserDebts
    simp [husv, hutv, huprobe, hufetch]
  · intro c d hact hcut hnz hout
    unfold accrueStep
    simp [hact, hcut, hout, hnz]

/-- Witness for the amended C8: dropping the failed-refresh tenant from a
concrete two-tenant batch leaves the run's counters unchanged. -/
theorem batch_refresh_failure_skips_without_error_witness :
    processDebtAccruals 15 ([] ++ cBadRefreshUser :: [cGoodUser2])
      = processDebtAccruals 15 ([] ++ [cGoodUser2]) :=
  (batch_refresh_failure_skips_without_error 15 [] [cGoodUser2]
    cBadRefreshUser rfl rfl rfl rfl rfl).2.1

/-
## Claim C1: idempotent skip
-/

/-- Claim C1: for every debt and resolved statement date, if a
`CreditHistory` row already exists for `(debtId, statementDate)` and accrual
is invoked with `recompute = false`, the invocation returns `skipped = true`
with the existing statement date and performs no writes: the ledger and the
debt's stored balance are unchanged. -/
theorem accrue_idempotent_skip (st : SheetsState) (debtId : String)
    (options : AccrueOptions) (today : CalDate) (debt : Debt) (S : CalDate)
    (hfind : st.debts.find? (fun d => d.id == debtId) = some debt)
    (hactive : debt.active = true)
    (hres : resolveStatementDate debt options.periodParam
      (options.dateParam.getD today) = .ok S)
    (hex : historyHasKey st.history debtId (toDays S) = true)
    (hrec : options.recompute = false) :
    accrueDebtInternal st debtId options today
      = (.ok ⟨true, some "Already accrued for this statementDate",
          some (toDays S), none⟩, []) ∧
    applyWrites st (accrueDebtInternal st debtId options today).2 = st := by
  have hmain : accrueDebtInternal st debtId options today
      = (.ok ⟨true, some "Already accrued for this statementDate",
          some (toDays S), none⟩, []) := by
    unfold accrueDebtInternal
    split
    · rename_i heq
      rw [hfind] at heq
      simp at heq
    · rename_i d heq
      rw [hfind] at heq
      injection heq with heq
      subst heq
      split
      · rename_i hb
        rw [hactive] at hb
        simp at hb
      · split
        · rename_i e heq2
          rw [hres] at heq2
          simp at heq2
        · rename_i S2 heq2
          rw [hres] at heq2
          injection heq2 with heq2
          subst heq2
          split
          · rfl
          · rename_i hcond
            rw [hex, hrec] at hcond
            simp at hcond
  exact ⟨hmain, by rw [hmain]; rfl⟩

/-- Witness for C1: on a concrete sheet already holding the June 2025
statement of `cDebt`, a second default-options accrual on 20 June 2025 is
skipped and leaves the sheet untouched. -/
theorem accrue_idempotent_skip_witness :
    accrueDebtInternal cState "d1" {} cToday
      = (.ok ⟨true, some "Already accrued for this statementDate",
          some (toDays cStatementJun), none⟩, []) ∧
    applyWrites cState (accrueDebtInternal cState "d1" {} cToday).2 = cState :=
  accrue_idempotent_skip cState "d1" {} cToday cDebt cStatementJun
    rfl rfl rfl rfl rfl

/-
## Claim C7: failure semantics and write ordering
-/

theorem accrueCompute_shape (st : SheetsState) (debtId : String)
    (options : AccrueOptions) (today : CalDate) (debt : Debt) (S : CalDate) :
    ∃ r w bal,
      accrueCompute st debtId options today debt S
        = (.ok r, [w, .updateDebtBalance debtId bal]) ∧ r.skipped = false :=
  ⟨_, _, _, rfl, rfl⟩

/-- Claim C7: accrual for a `debtId` absent from the debt table fails with
`404 Debt not found`, and no failing or skipping invocation performs any
write; a successful invocation's only writes are its final two steps — the
`CreditHistory` write followed by the debt-balance write — so the ledger is
touched only after all computation has succeeded. -/
theorem accrue_failure_semantics (st : SheetsState) (debtId : String)
    (options : AccrueOptions) (today : CalDate) :
    (st.debts.find? (fun d => d.id == debtId) = none →
      accrueDebtInternal st debtId options today
        = (.error (.notFound "Debt not found"), [])) ∧
    (∀ e, (accrueDebtInternal st debtId options today).1 = .error e →
      (accrueDebtInternal st debtId options today).2 = []) ∧
    (∀ r, (accrueDebtInternal st debtId options today).1 = .ok r →
      r.skipped = true → (accrueDebtInternal st debtId options today).2 = []) ∧
    (∀ r, (accrueDebtInternal st debtId options today).1 = .ok r →
      r.skipped = false →
      ∃ w bal, (accrueDebtInternal st debtId options today).2
        = [w, .updateDebtBalance debtId bal]) := by
  have hcases :
      (∃ e, accrueDebtInternal st debtId options today = (.error e, [])) ∨
      (∃ r, r.skipped = true ∧
        accrueDebtInternal st debtId options today = (.ok r, [])) ∨
      (∃ r w bal,
        accrueDebtInternal st debtId options today
          = (.ok r, [w, .updateDebtBalance debtId bal]) ∧ r.skipped = false) := by
    unfold accrueDebtInternal
    split
    · exact Or.inl ⟨_, rfl⟩
    · split
      · exact Or.inr (Or.inl ⟨_, rfl, rfl⟩)
      · split
        · exact Or.inl ⟨_, rfl⟩
        · split
          · exact Or.inr (Or.inl ⟨_, rfl, rfl⟩)
          · exact Or.inr (Or.inr ⟨_, _, _, rfl, rfl⟩)
  refine ⟨?_, ?_, ?_, ?_⟩
  · intro h
    unfold accrueDebtInternal
    rw [h]
  · intro e h1
    rcases hcases with ⟨e2, heq⟩ | ⟨r, hskip, heq⟩ | ⟨r, w, bal, heq, hskip⟩
    · rw [heq]
    · rw [heq]
    · rw [heq] at h1
      simp at h1
  · intro r h1 hskip
    rcases hcases with ⟨e2, heq⟩ | ⟨r2, hskip2, heq⟩ | ⟨r2, w, bal, heq, hskip2⟩
    · rw [heq]
    · rw [heq]
    · rw [heq] at h1
      simp only [Except.ok.injEq] at h1
      subst h1
      rw [hskip] at hskip2
      simp at hskip2
  · intro r h1 hskip
    rcases hcases with ⟨e2, heq⟩ | ⟨r2, hskip2, heq⟩ | ⟨r2, w, bal, heq, hskip2⟩
    · rw [heq] at h1
      simp at h1
    · rw [heq] at h1
      simp only [Except.ok.injEq] at h1
      subst h1
      rw [hskip] at hskip2
      simp at hskip2
    · exact ⟨w, bal, by rw [heq]⟩

/-- Witness for C7: on an empty sheet the lookup fails and the invocation
returns `404 Debt not found` with no writes. -/
theorem accrue_failure_semantics_witness :
    accrueDebtInternal ⟨[], [], []⟩ "missing" {} ⟨2025, 0, 1⟩
      = (.error (.notFound "Debt not found"), []) :=
  (accrue_failure_semantics ⟨[], [], []⟩ "missing" {} ⟨2025, 0, 1⟩).1 rfl

/-
## Claim C4: recompute overwrites in place
-/

/-- Claim C4: for every debt and statement date with an existing
`CreditHistory` record, invoking accrual with `recompute = true` updates that
record's row in place (an `updateCreditHistoryRow` write, never an append),
with the new record carrying the same key; hence the number of records per
`(debtId, statementDate)` key — in particular "at most one" — is preserved
exactly. -/
theorem accrue_recompute_in_place (st : SheetsState) (debtId : String)
    (options : AccrueOptions) (today : CalDate) (debt : Debt) (S : CalDate)
    (hfind : st.debts.find? (fun d => d.id == debtId) = some debt)
    (hactive : debt.active = true)
    (hres : resolveStatementDate debt options.periodParam
      (options.dateParam.getD today) = .ok S)
    (hex : historyHasKey st.history debtId (toDays S) = true)
    (hrec : options.recompute = true) :
    ∃ (n : Nat) (rec : HistoryRecord) (bal : ℚ),
      accrueDebtInternal st debtId options today
        = (.ok ⟨false, none, some (toDays S), some rec⟩,
            [.updateHistoryRow n rec, .updateDebtBalance debtId bal]) ∧
      rec.debtId = debtId ∧ rec.statementDate = toDays S ∧
      ∀ (id : String) (sd : Int),
        countKey
            (applyWrites st (accrueDebtInternal st debtId options today).2).history
            id sd
          = countKey st.history id sd := by
  have hred : accrueDebtInternal st debtId options today
      = accrueCompute st debtId options today debt S := by
    unfold accrueDebtInternal
    split
    · rename_i heq
      rw [hfind] at heq
      simp at heq
    · rename_i d heq
      rw [hfind] at heq
      injection heq with heq
      subst heq
      split
      · rename_i hb
        rw [hactive] at hb
        simp at hb
      · split
        · rename_i e heq2
          rw [hres] at heq2
          simp at heq2
        · rename_i S2 heq2
          rw [hres] at heq2
          injection heq2 with heq2
          subst heq2
          split
          · rename_i hcond
            rw [hrec] at hcond
            simp at hcond
          · rfl
  have hex2 : st.history.any
      (fun h => h.debtId == debtId && h.statementDate == toDays S) = true := hex
  obtain ⟨j, hfij, hj, hpj⟩ :=
    findIdxFrom_of_any
      (fun h => h.debtId == debtId && h.statementDate == toDays S)
      st.history 2 hex2
  have hrow : findCreditHistoryRow st.history debtId (toDays S) = some (2 + j) :=
    hfij
  simp only [Bool.and_eq_true, beq_iff_eq] at hpj
  rw [hred]
  simp only [accrueCompute]
  rw [hex, hrec, hrow]
  simp only [Bool.and_self, if_pos, ite_true]
  refine ⟨2 + j, _, _, rfl, rfl, rfl, ?_⟩
  intro id sd
  simp only [applyWrites, List.foldl_cons, List.foldl_nil, applyWrite]
  have h2j : 2 + j - 2 = j := by omega
  rw [h2j]
  exact countKey_set st.history j _ hj hpj.1 hpj.2 id sd

/-- Witness for C4: recomputing the already-persisted June 2025 statement of
`cDebt` on the concrete sheet updates the existing row in place and
preserves every key count. -/
theorem accrue_recompute_in_place_witness :
    ∃ (n : Nat) (rec : HistoryRecord) (bal : ℚ),
      accrueDebtInternal cState "d1" ⟨true, none, none⟩ cToday
        = (.ok ⟨false, none, some (toDays cStatementJun), some rec⟩,
            [.updateHistoryRow n rec, .updateDebtBalance "d1" bal]) ∧
      rec.debtId = "d1" ∧ rec.statementDate = toDays cStatementJun ∧
      ∀ (id : String) (sd : Int),
        countKey
            (applyWrites cState
              (accrueDebtInternal cState "d1" ⟨true, none, none⟩ cToday).2).history
            id sd
          = countKey cState.history id sd :=
  accrue_recompute_in_place cState "d1" ⟨true, none, none⟩ cToday cDebt
    cStatementJun rfl rfl rfl rfl rfl

/-
## Claim C3: period windows of consecutive cycles
-/

/-- Counterexample to C3 as stated: for `cDebt` (cutoff day 15), the
February 2025 cycle's event window and the March 2025 cycle's event window
are both missed by the February statement date itself (2025-02-15): it lies
between the first window's start and the second window's end, yet belongs to
neither window, because each window starts at `prevStatementDate + 1 day`
while the previous window already excluded its own statement date.  So
consecutive windows are NOT gap-free: each statement date is a one-day gap. -/
theorem period_windows_gap_counterexample :
    periodStartT cDebt (statementDateForPeriod cDebt 2025 1)
        ≤ toDays (statementDateForPeriod cDebt 2025 1) ∧
    toDays (statementDateForPeriod cDebt 2025 1)
        < toDays (statementDateForPeriod cDebt 2025 2) ∧
    ¬ inEventWindow cDebt (statementDateForPeriod cDebt 2025 1)
        (toDays (statementDateForPeriod cDebt 2025 1)) ∧
    ¬ inEventWindow cDebt (statementDateForPeriod cDebt 2025 2)
        (toDays (statementDateForPeriod cDebt 2025 1)) := by
  refine ⟨by decide, by decide, by decide, by decide⟩

/-- Claim C3 (amended): for any debt with a configured cutoff day and any two
consecutive monthly cycles, the previous-statement date of the later cycle is
exactly the earlier cycle's statement date, and the two half-open event
windows are non-overlapping and adjacent EXCEPT for the earlier statement
date itself: their union is every day from the first window's start up to
(excluding) the later statement date, minus the earlier statement date,
which belongs to neither cycle. -/
theorem period_windows_partition_except_cutoff (debt : Debt) (D : Int)
    (y : Int) (m : Nat) (hcut : debt.cutOffDay = some D) (hm : m ≤ 11) :
    resolvePrevStatementDate debt
        (statementDateForPeriod debt (nextMonthOf y m).1 (nextMonthOf y m).2)
      = statementDateForPeriod debt y m ∧
    (∀ t, ¬(inEventWindow debt (statementDateForPeriod debt y m) t ∧
      inEventWindow debt
        (statementDateForPeriod debt (nextMonthOf y m).1 (nextMonthOf y m).2)
        t)) ∧
    (∀ t,
      (inEventWindow debt (statementDateForPeriod debt y m) t ∨
        inEventWindow debt
          (statementDateForPeriod debt (nextMonthOf y m).1 (nextMonthOf y m).2)
          t) ↔
      (periodStartT debt (statementDateForPeriod debt y m) ≤ t ∧
        t < toDays
          (statementDateForPeriod debt (nextMonthOf y m).1 (nextMonthOf y m).2) ∧
        t ≠ toDays (statementDateForPeriod debt y m))) := by
  have hS1 : statementDateForPeriod debt y m = ⟨y, m, dayClamp y m D⟩ := by
    simp [statementDateForPeriod, hcut]
  have hS2 : statementDateForPeriod debt (nextMonthOf y m).1 (nextMonthOf y m).2
      = ⟨(nextMonthOf y m).1, (nextMonthOf y m).2,
          dayClamp (nextMonthOf y m).1 (nextMonthOf y m).2 D⟩ := by
    simp [statementDateForPeriod, hcut]
  have hprev2 : resolvePrevStatementDate debt
      ⟨(nextMonthOf y m).1, (nextMonthOf y m).2,
        dayClamp (nextMonthOf y m).1 (nextMonthOf y m).2 D⟩
      = ⟨y, m, dayClamp y m D⟩ := by
    have hpn := prevMonthOf_nextMonthOf y m hm
    simp only [resolvePrevStatementDate, hcut, hpn]
  have hprev1 : resolvePrevStatementDate debt ⟨y, m, dayClamp y m D⟩
      = ⟨(prevMonthOf y m).1, (prevMonthOf y m).2,
          dayClamp (prevMonthOf y m).1 (prevMonthOf y m).2 D⟩ := by
    simp only [resolvePrevStatementDate, hcut]
  -- the later cycle's window starts the day after the earlier statement date
  have hstart2 : periodStartT debt
      ⟨(nextMonthOf y m).1, (nextMonthOf y m).2,
        dayClamp (nextMonthOf y m).1 (nextMonthOf y m).2 D⟩
      = toDays ⟨y, m, dayClamp y m D⟩ + 1 := by
    unfold periodStartT
    rw [hprev2]
    exact toDays_nextDay ⟨y, m, dayClamp y m D⟩ hm (dayClamp_upper y m D)
  -- the earlier cycle's window starts the day after ITS previous statement
  have hstart1 : periodStartT debt ⟨y, m, dayClamp y m D⟩
      = toDays ⟨(prevMonthOf y m).1, (prevMonthOf y m).2,
          dayClamp (prevMonthOf y m).1 (prevMonthOf y m).2 D⟩ + 1 := by
    unfold periodStartT
    rw [hprev1]
    exact toDays_nextDay _ (prevMonthOf_snd_le y m hm)
      (dayClamp_upper (prevMonthOf y m).1 (prevMonthOf y m).2 D)
  -- ordering of the three statement dates
  have hbc : toDays ⟨y, m, dayClamp y m D⟩
      < toDays ⟨(nextMonthOf y m).1, (nextMonthOf y m).2,
          dayClamp (nextMonthOf y m).1 (nextMonthOf y m).2 D⟩ :=
    toDays_lt_next_month y m hm _ _ (dayClamp_upper y m D)
      (dayClamp_lower (nextMonthOf y m).1 (nextMonthOf y m).2 D)
  have hab : toDays ⟨(prevMonthOf y m).1, (prevMonthOf y m).2,
        dayClamp (prevMonthOf y m).1 (prevMonthOf y m).2 D⟩
      < toDays ⟨y, m, dayClamp y m D⟩ := by
    have hkey := toDays_lt_next_month (prevMonthOf y m).1 (prevMonthOf y m).2
      (prevMonthOf_snd_le y m hm)
      (dayClamp (prevMonthOf y m).1 (prevMonthOf y m).2 D)
      (dayClamp y m D)
      (dayClamp_upper (prevMonthOf y m).1 (prevMonthOf y m).2 D)
      (dayClamp_lower y m D)
    rw [nextMonthOf_prevMonthOf y m hm] at hkey
    exact hkey
  rw [hS1, hS2]
  refine ⟨hprev2, ?_, ?_⟩
  · intro t
    simp only [inEventWindow, hstart1, hstart2, not_and]
    omega
  · intro t
    simp only [inEventWindow, hstart1, hstart2, ne_eq]
    constructor
    · intro h
      rcases h with ⟨h1, h2⟩ | ⟨h1, h2⟩ <;> refine ⟨by omega, by omega, by omega⟩
    · intro ⟨h1, h2, h3⟩
      by_cases hlt : t < toDays ⟨y, m, dayClamp y m D⟩
      · exact Or.inl ⟨by omega, hlt⟩
      · exact Or.inr ⟨by omega, by omega⟩

/-- Witness for the amended C3: the partition statement instantiated for
`cDebt` at January 2025 and its successor month. -/
theorem period_windows_partition_except_cutoff_witness :
    resolvePrevStatementDate cDebt
        (statementDateForPeriod cDebt (nextMonthOf 2025 0).1 (nextMonthOf 2025 0).2)
      = statementDateForPeriod cDebt 2025 0 ∧
    (∀ t, ¬(inEventWindow cDebt (statementDateForPeriod cDebt 2025 0) t ∧
      inEventWindow cDebt
        (statementDateForPeriod cDebt (nextMonthOf 2025 0).1 (nextMonthOf 2025 0).2)
        t)) ∧
    (∀ t,
      (inEventWindow cDebt (statementDateForPeriod cDebt 2025 0) t ∨
        inEventWindow cDebt
          (statementDateForPeriod cDebt (nextMonthOf 2025 0).1 (nextMonthOf 2025 0).2)
          t) ↔
      (periodStartT cDebt (statementDateForPeriod cDebt 2025 0) ≤ t ∧
        t < toDays
          (statementDateForPeriod cDebt (nextMonthOf 2025 0).1 (nextMonthOf 2025 0).2) ∧
        t ≠ toDays (statementDateForPeriod cDebt 2025 0))) :=
  period_windows_partition_except_cutoff cDebt 15 2025 0 rfl (by decide)

end CashFlowTracker
